import Mathlib

/-!
Verification of the quantization engine of `scripts/quantize.py` and the
quantization path of `scripts/convert.py` (transformers.js conversion tooling).

The Python source is shallowly embedded: graphs become an inductive type,
the per-(file, mode) dispatch becomes a pure function that returns the trace
of externally visible events (quantizer invocations with their resolved
parameters, file writes), and exceptions become `Except`/`Option String`
values threaded exactly where the source catches or propagates them.
External collaborators that are not part of this repository
(onnxruntime quantizer engines, `optimum`'s `check_and_save_model`,
`onnxconverter_common.float16`, `onnx_graphsurgeon`'s toposort) are either
abstracted as function parameters or modelled from the spec, as marked in
their doc comments.
-/

namespace QuantizeScripts

/-- Kind of an ONNX node attribute, as inspected by `get_operators`:
either it carries a nested graph (`onnx.AttributeProto.GRAPH`) or it is any
other attribute payload (tensor, scalar, ...), which the quantization
scripts never traverse. -/
inductive AttrKind where
  | GRAPH : AttrKind
  | OTHER : AttrKind
deriving DecidableEq

/-- A node of an ONNX graph (`onnx.NodeProto`) restricted to the fields the
scripts read: the operator-type name (`node.op_type`), the input and output
tensor names (`node.input` / `node.output`), and the attribute list
(`node.attribute`), where an attribute of kind `GRAPH` carries the node list
of a nested subgraph (`attr.g`). -/
inductive Node where
  | mk (op_type : String) (input : List String) (output : List String)
      (attrs : List (AttrKind × List Node))

/-- Accessor for `node.op_type`. -/
def Node.op_type : Node → String
  | .mk o _ _ _ => o

/-- Accessor for `node.input`. -/
def Node.input : Node → List String
  | .mk _ i _ _ => i

/-- Accessor for `node.output`. -/
def Node.output : Node → List String
  | .mk _ _ o _ => o

/-- Accessor for `node.attribute`. -/
def Node.attrs : Node → List (AttrKind × List Node)
  | .mk _ _ _ a => a

/-- An ONNX graph (`onnx.GraphProto`): its ordered node list. -/
structure GraphProto where
  node : List Node

/-- An ONNX model (`onnx.ModelProto`): its graph, plus the serialized size
reported by `model.ByteSize()`.  The size is carried as a plain field (the
spec's "test double" view): protobuf serialization itself is outside the
embedded fragment, and every size comparison made by the scripts goes
through this value. -/
structure ModelProto where
  graph : GraphProto
  byteSize : Nat

mutual

/-- Work done by `traverse_graph` for one node: add its `op_type`, then
recurse into every attribute that carries a nested graph. -/
def nodeOperators : Node → Finset String
  | .mk op _ _ attrs => insert op (attrsOperators attrs)

/-- Work done by `traverse_graph` over a node's attribute list: recurse into
`attr.g` exactly when `attr.type == onnx.AttributeProto.GRAPH`. -/
def attrsOperators : List (AttrKind × List Node) → Finset String
  | [] => ∅
  | (k, g) :: rest =>
      (if k = AttrKind.GRAPH then nodesOperators g else ∅) ∪ attrsOperators rest

/-- Work done by `traverse_graph` over a node list. -/
def nodesOperators : List Node → Finset String
  | [] => ∅
  | n :: rest => nodeOperators n ∪ nodesOperators rest

end

/-- Embedding of `get_operators(model)` from `scripts/quantize.py` (the copy in
`scripts/convert.py` is identical): the set of operator-type names of all
nodes of `model.graph`, descending recursively into nested subgraph
attributes.  The Python function accumulates into a `set`; the embedding
builds the same set with `insert`/`∪`. -/
def get_operators (model : ModelProto) : Finset String :=
  nodesOperators model.graph.node

mutual

/-- Specification-side collector: the node itself together with all nodes of
all its nested subgraphs. -/
def allNodesOfNode : Node → List Node
  | .mk op i o attrs => .mk op i o attrs :: allNodesOfAttrs attrs

/-- Specification-side collector over an attribute list: all nodes of the
subgraphs carried by `GRAPH` attributes. -/
def allNodesOfAttrs : List (AttrKind × List Node) → List Node
  | [] => []
  | (k, g) :: rest =>
      (if k = AttrKind.GRAPH then allNodesOfList g else []) ++ allNodesOfAttrs rest

/-- Specification-side collector over a node list. -/
def allNodesOfList : List Node → List Node
  | [] => []
  | n :: rest => allNodesOfNode n ++ allNodesOfList rest

end

/-- All nodes of a graph, top-level and recursively nested.  Written from the
spec's words ("every Node ... in every recursively nested subgraph
attribute") to compare `get_operators` against. -/
def specOperatorInventory (g : GraphProto) : Finset String :=
  ((allNodesOfList g.node).map Node.op_type).toFinset

mutual

theorem nodeOperators_eq (n : Node) :
    nodeOperators n = ((allNodesOfNode n).map Node.op_type).toFinset := by
  match n with
  | .mk op i o attrs =>
    rw [nodeOperators, allNodesOfNode, attrsOperators_eq attrs]
    simp [Node.op_type]

theorem attrsOperators_eq (l : List (AttrKind × List Node)) :
    attrsOperators l = ((allNodesOfAttrs l).map Node.op_type).toFinset := by
  match l with
  | [] => rfl
  | (k, g) :: rest =>
    rw [attrsOperators, allNodesOfAttrs, attrsOperators_eq rest]
    by_cases hk : k = AttrKind.GRAPH
    · rw [if_pos hk, if_pos hk, nodesOperators_eq g]
      simp
    · rw [if_neg hk, if_neg hk]
      simp

theorem nodesOperators_eq (l : List Node) :
    nodesOperators l = ((allNodesOfList l).map Node.op_type).toFinset := by
  match l with
  | [] => rfl
  | n :: rest =>
    rw [nodesOperators, allNodesOfList, nodeOperators_eq n, nodesOperators_eq rest]
    simp

end

/-- If no attribute of the list carries a nested graph, the attribute
traversal contributes nothing. -/
theorem attrsOperators_of_no_graph (l : List (AttrKind × List Node))
    (h : ∀ p ∈ l, p.1 ≠ AttrKind.GRAPH) : attrsOperators l = ∅ := by
  induction l with
  | nil => rfl
  | cons p rest ih =>
    obtain ⟨k, g⟩ := p
    rw [attrsOperators, if_neg (h (k, g) (List.mem_cons_self _ _)), ih]
    · simp
    · intro q hq
      exact h q (List.mem_cons_of_mem _ hq)

/-! ### Topological sorting (`graph.toposort()` in `quantize_fp16`) -/

/-- Relation `NoForwardRef a b`: node `b` produces no tensor that node `a` consumes;
when `a` precedes `b` in a node list this says the pair introduces no forward
reference. -/
def NoForwardRef (a b : Node) : Prop := ∀ t ∈ b.output, t ∉ a.input

/-- A node list is topologically sorted when every tensor's producer precedes
all of its consumers, i.e. no node consumes an output of a later node. -/
def TopoSorted (l : List Node) : Prop := l.Pairwise NoForwardRef

/-- A node never consumes its own outputs (no self-loop). -/
def NoSelfLoop (n : Node) : Prop := ∀ t ∈ n.output, t ∉ n.input

/-- A topologically valid node list: sorted and free of self-loops.  A graph
is acyclic exactly when some permutation of its nodes is valid. -/
def TopoValid (l : List Node) : Prop := TopoSorted l ∧ ∀ n ∈ l, NoSelfLoop n

instance (a b : Node) : Decidable (NoForwardRef a b) :=
  inferInstanceAs (Decidable (∀ t ∈ b.output, t ∉ a.input))

instance (n : Node) : Decidable (NoSelfLoop n) :=
  inferInstanceAs (Decidable (∀ t ∈ n.output, t ∉ n.input))

instance (l : List Node) : Decidable (TopoSorted l) := by
  unfold TopoSorted
  infer_instance

instance (l : List Node) : Decidable (TopoValid l) := by
  unfold TopoValid
  infer_instance

/-- A node is ready for emission when none of its inputs is produced by a
still-pending node. -/
def ready (all : List Node) (n : Node) : Bool :=
  decide (∀ t ∈ n.input, ∀ m ∈ all, t ∉ m.output)

/-- First ready node of a list (w.r.t. the pending set `all`), together with
the remaining nodes in their original order. -/
def pickReady (all : List Node) : List Node → Option (Node × List Node)
  | [] => none
  | n :: rest =>
    if ready all n then some (n, rest)
    else
      match pickReady all rest with
      | some (m, rest') => some (m, n :: rest')
      | none => none

/-- Modelled from the spec: `onnx_graphsurgeon`'s `graph.toposort()` is not
part of this repository.  Per spec 4.5 the node list is re-topologically
sorted after conversion.  Kahn-style selection: repeatedly emit a node whose
inputs no pending node produces.  The `Bool` reports completion (it is
`false` only on a cyclic residue, which the source format excludes). -/
def kahn : Nat → List Node → List Node × Bool
  | 0, pending => (pending, pending.isEmpty)
  | fuel + 1, pending =>
    match pickReady pending pending with
    | none => (pending, pending.isEmpty)
    | some (n, rest) => (n :: (kahn fuel rest).1, (kahn fuel rest).2)

/-- Embedding of `graph.toposort()` applied to a graph's node list. -/
def GraphProto.toposort (g : GraphProto) : GraphProto :=
  ⟨(kahn g.node.length g.node).1⟩

theorem ready_iff (all : List Node) (n : Node) :
    ready all n = true ↔ ∀ t ∈ n.input, ∀ m ∈ all, t ∉ m.output := by
  simp [ready]

theorem ready_of_perm {l₁ l₂ : List Node} (h : l₁.Perm l₂) (n : Node) :
    ready l₁ n = ready l₂ n := by
  rw [Bool.eq_iff_iff, ready_iff, ready_iff]
  constructor
  · intro hh t ht m hm
    exact hh t ht m (h.mem_iff.mpr hm)
  · intro hh t ht m hm
    exact hh t ht m (h.mem_iff.mp hm)

theorem pickReady_eq_some (all : List Node) :
    ∀ l n rest, pickReady all l = some (n, rest) →
      ready all n = true ∧ l.Perm (n :: rest) := by
  intro l
  induction l with
  | nil => intro n rest h; exact absurd h (by simp [pickReady])
  | cons a t ih =>
    intro n rest h
    by_cases ha : ready all a = true
    · rw [pickReady, if_pos ha] at h
      injection h with h2
      cases h2
      exact ⟨ha, List.Perm.refl _⟩
    · rw [pickReady, if_neg ha] at h
      cases hp : pickReady all t with
      | none => rw [hp] at h; exact absurd h (by simp)
      | some pr =>
        obtain ⟨m, rest'⟩ := pr
        rw [hp] at h
        injection h with h2
        cases h2
        obtain ⟨hm, hperm⟩ := ih _ _ hp
        exact ⟨hm, (hperm.cons a).trans (List.Perm.swap _ a _)⟩

theorem pickReady_eq_none (all : List Node) :
    ∀ l, pickReady all l = none → ∀ n ∈ l, ready all n = false := by
  intro l
  induction l with
  | nil => simp
  | cons a t ih =>
    intro h n hn
    by_cases ha : ready all a = true
    · rw [pickReady, if_pos ha] at h; exact absurd h (by simp)
    · rw [pickReady, if_neg ha] at h
      cases hp : pickReady all t with
      | some pr =>
        obtain ⟨m, r⟩ := pr
        rw [hp] at h
        exact absurd h (by simp)
      | none =>
        rcases List.mem_cons.mp hn with rfl | hn'
        · exact Bool.eq_false_iff.mpr ha
        · exact ih hp n hn'

theorem kahn_mem : ∀ (fuel : Nat) (pending : List Node) (x : Node),
    x ∈ (kahn fuel pending).1 → x ∈ pending := by
  intro fuel
  induction fuel with
  | zero => intro pending x hx; exact hx
  | succ fuel ih =>
    intro pending x hx
    rw [kahn] at hx
    cases hp : pickReady pending pending with
    | none => rw [hp] at hx; exact hx
    | some pr =>
      obtain ⟨n, rest⟩ := pr
      rw [hp] at hx
      obtain ⟨-, hperm⟩ := pickReady_eq_some pending pending n rest hp
      rcases List.mem_cons.mp hx with rfl | hx'
      · exact hperm.mem_iff.mpr (List.mem_cons_self _ _)
      · exact hperm.mem_iff.mpr (List.mem_cons_of_mem _ (ih rest x hx'))

/-- When Kahn's selection completes, the emitted node list is topologically
sorted. -/
theorem kahn_sorted : ∀ (fuel : Nat) (pending : List Node),
    (kahn fuel pending).2 = true → TopoSorted (kahn fuel pending).1 := by
  intro fuel
  induction fuel with
  | zero =>
    intro pending h
    have hnil : pending = [] := List.isEmpty_iff.mp h
    subst hnil
    exact List.Pairwise.nil
  | succ fuel ih =>
    intro pending h
    rw [kahn] at h ⊢
    cases hp : pickReady pending pending with
    | none =>
      rw [hp] at h
      have hnil : pending = [] := List.isEmpty_iff.mp h
      subst hnil
      exact List.Pairwise.nil
    | some pr =>
      obtain ⟨n, rest⟩ := pr
      rw [hp] at h
      replace h : (kahn fuel rest).2 = true := h
      show TopoSorted (n :: (kahn fuel rest).1)
      obtain ⟨hr, hperm⟩ := pickReady_eq_some pending pending n rest hp
      refine List.Pairwise.cons ?_ (ih rest h)
      intro b hb t ht hti
      have hbp : b ∈ pending :=
        hperm.mem_iff.mpr (List.mem_cons_of_mem _ (kahn_mem fuel rest b hb))
      exact (ready_iff pending n).mp hr t hti b hbp ht

/-- When the pending nodes admit a topologically valid arrangement (the graph
is acyclic), Kahn's selection completes given enough fuel. -/
theorem kahn_complete : ∀ (fuel : Nat) (pending l' : List Node),
    pending.length ≤ fuel → pending.Perm l' → TopoValid l' →
    (kahn fuel pending).2 = true := by
  intro fuel
  induction fuel with
  | zero =>
    intro pending l' hlen hperm hvalid
    have hnil : pending = [] := List.length_eq_zero.mp (Nat.le_zero.mp hlen)
    subst hnil
    rfl
  | succ fuel ih =>
    intro pending l' hlen hperm hvalid
    cases pending with
    | nil => simp [kahn, pickReady]
    | cons p ps =>
      cases l' with
      | nil => exact absurd hperm.length_eq (by simp)
      | cons h0 t0 =>
        obtain ⟨hsorted, hself⟩ := hvalid
        have hhead : ∀ b ∈ t0, NoForwardRef h0 b :=
          (List.pairwise_cons.mp hsorted).1
        have hready' : ready (h0 :: t0) h0 = true := by
          rw [ready_iff]
          intro t ht m hm hto
          rcases List.mem_cons.mp hm with heq | hm'
          · exact hself h0 (List.mem_cons_self _ _) t (heq ▸ hto) ht
          · exact hhead m hm' t hto ht
        have hready : ready (p :: ps) h0 = true := by
          rw [ready_of_perm hperm h0]
          exact hready'
        cases hp : pickReady (p :: ps) (p :: ps) with
        | none =>
          have hfalse := pickReady_eq_none (p :: ps) (p :: ps) hp h0
            (hperm.mem_iff.mpr (List.mem_cons_self _ _))
          rw [hready] at hfalse
          exact absurd hfalse (by simp)
        | some pr =>
          obtain ⟨n, rest⟩ := pr
          obtain ⟨hrn, hpermr⟩ := pickReady_eq_some (p :: ps) (p :: ps) n rest hp
          have hnl' : n ∈ h0 :: t0 :=
            hperm.mem_iff.mp (hpermr.mem_iff.mpr (List.mem_cons_self _ _))
          obtain ⟨s, t1, heq⟩ := List.append_of_mem hnl'
          have hsub : (s ++ t1).Sublist (s ++ n :: t1) :=
            (List.sublist_cons_self n t1).append_left s
          have hsorted' : TopoSorted (s ++ n :: t1) := heq ▸ hsorted
          have hvalid2 : TopoValid (s ++ t1) := by
            constructor
            · exact hsorted'.sublist hsub
            · intro x hx
              exact hself x (heq ▸ hsub.mem hx)
          have hpermr2 : rest.Perm (s ++ t1) := by
            have h1 : (n :: rest).Perm (n :: (s ++ t1)) :=
              (hpermr.symm.trans hperm).trans (heq ▸ List.perm_middle)
            exact h1.cons_inv
          have hlen2 : rest.length ≤ fuel := by
            have hlen1 : (n :: rest).length = (p :: ps).length := hpermr.symm.length_eq
            simp only [List.length_cons] at hlen1 hlen
            omega
          rw [kahn, hp]
          exact ih rest (s ++ t1) hlen2 hpermr2 hvalid2

/-! ### Modes, arguments and the external quantizer engines -/

/-- Enum `QuantMode` from `scripts/quantize.py` (the enum in `scripts/convert.py`
is the same minus `Q4F16`). -/
inductive QuantMode where
  | FP16 : QuantMode
  | Q8 : QuantMode
  | QI8 : QuantMode
  | QU8 : QuantMode
  | Q4 : QuantMode
  | Q4F16 : QuantMode
  | BNB4 : QuantMode
deriving DecidableEq, Fintype

/-- The `value` string of each `QuantMode` member. -/
def QuantMode.value : QuantMode → String
  | .FP16 => "fp16"
  | .Q8 => "q8"
  | .QI8 => "int8"
  | .QU8 => "uint8"
  | .Q4 => "q4"
  | .Q4F16 => "q4f16"
  | .BNB4 => "bnb4"

/-- Enum `onnxruntime.quantization.QuantType` (the two members the scripts use). -/
inductive QuantType where
  | QInt8 : QuantType
  | QUInt8 : QuantType
deriving DecidableEq

/-- Constant `MatMulBnb4Quantizer.FP4` (onnxruntime). -/
def MatMulBnb4Quantizer.FP4 : Int := 0

/-- Constant `MatMulBnb4Quantizer.NF4` (onnxruntime). -/
def MatMulBnb4Quantizer.NF4 : Int := 1

/-- Constant `onnx.checker.MAXIMUM_PROTOBUF`: the fixed maximum single-document size
of the interchange format (an onnx constant, not defined in this
repository; its exact value is irrelevant to the theorems below). -/
def MAXIMUM_PROTOBUF : Nat := 2000000000

/-- The `QuantizationArguments` dataclass of `scripts/quantize.py`.
Fields whose dataclass default is `None` are `Option`s. -/
structure QuantizationArguments where
  per_channel : Option Bool := none
  reduce_range : Option Bool := none
  block_size : Option Int := none
  is_symmetric : Bool := true
  accuracy_level : Option Int := none
  quant_type : Option Int := some MatMulBnb4Quantizer.NF4

/-- Python's `x or default` applied to an optional integer command-line
argument: `None` and `0` are both falsy and yield the default. -/
def pyOr (x : Option Int) (default : Int) : Int :=
  match x with
  | none => default
  | some v => if v = 0 then default else v

/-- Python's `x if x is not None else default`. -/
def pyIfNotNone (x : Option Int) (default : Int) : Int :=
  match x with
  | none => default
  | some v => v

/-- Externally visible events of one quantization job: invocations of the
external quantizer engines with their resolved parameters, and file writes. -/
inductive Event where
  | convertedFp16 (disable_shape_infer : Bool)
  | wrote (path : String)
  | calledQ4 (save_path : Option String) (block_size : Int)
      (is_symmetric : Bool) (accuracy_level : Option Int)
  | calledBnb4 (block_size : Int) (quant_type : Int)
  | calledQ8 (weight_type : QuantType) (activation_qType : QuantType)
      (per_channel : Option Bool) (reduce_range : Option Bool)
  | calledQuantizeDynamic (weight_type : QuantType)
  | inspectedOperators
deriving DecidableEq

/-- The file paths written according to a trace of events. -/
def writesOf (evs : List Event) : List String :=
  evs.filterMap fun e =>
    match e with
    | .wrote p => some p
    | _ => none

/-- The external quantizer engines the scripts invoke
(`ONNXQuantizer.quantize_model`, `MatMul4BitsQuantizer.process`,
`MatMulBnb4Quantizer.process`, `quantize_dynamic`).  They live in
onnxruntime, outside this repository, and may raise on unsupported
topologies, so the embedding keeps them abstract as fallible model
transformations. -/
structure Quantizers where
  q8process : ModelProto → QuantType → QuantType → Option Bool → Option Bool →
    Except String ModelProto
  q4process : ModelProto → Int → Bool → Option Int → Except String ModelProto
  bnb4process : ModelProto → Int → Int → Except String ModelProto
  quantizeDynamic : ModelProto → QuantType → Except String Unit

/-- Modelled from the spec:
`optimum.onnx.graph_transformations.check_and_save_model` is not part of
this repository.  Per spec 4.6, a model whose serialized size reaches the
single-document ceiling is persisted with its weights externalized into
exactly one companion file whose name appends `_data` to the primary file
name; otherwise a single plain document is written.  Returns the write
events. -/
def check_and_save_model (model : ModelProto) (save_path : String) : List Event :=
  if MAXIMUM_PROTOBUF ≤ model.byteSize then
    [Event.wrote save_path, Event.wrote (save_path ++ "_data")]
  else
    [Event.wrote save_path]

/-- Modelled from the spec:
`onnxconverter_common.float16.convert_float_to_float16` is not part of this
repository.  Per spec 4.5 and the comment in `quantize_fp16`, running it
with shape inference enabled against a model whose serialized size is at or
above the maximum single-document size fails ("Message onnx.ModelProto
exceeds maximum protobuf size"); with `disable_shape_infer=True` it
succeeds.  Tensor payloads and numeric types are outside the embedded
graph fragment, so the model is otherwise returned unchanged
(`keep_io_types=True` preserves the declared interface). -/
def convert_float_to_float16 (model : ModelProto) (keep_io_types : Bool)
    (disable_shape_infer : Bool) : Except String ModelProto :=
  if ¬disable_shape_infer ∧ MAXIMUM_PROTOBUF ≤ model.byteSize then
    .error "Message onnx.ModelProto exceeds maximum protobuf size of 2GB"
  else
    .ok model

/-! ### The quantization functions of `scripts/quantize.py` -/

/-- Embedding of `quantize_q8` from `scripts/quantize.py`: dynamic 8-bit quantization via
`ONNXQuantizer` with the resolved weight type and, as the source comment
says, unsigned activations ("dynamic activation only supports uint8"),
then `check_and_save_model`.  Returns the event trace and the escaped
exception, if any. -/
def quantize_q8 (qs : Quantizers) (model : ModelProto) (save_path : String)
    (per_channel : Option Bool) (reduce_range : Option Bool)
    (weight_type : QuantType) : List Event × Option String :=
  let ev := Event.calledQ8 weight_type QuantType.QUInt8 per_channel reduce_range
  match qs.q8process model weight_type QuantType.QUInt8 per_channel reduce_range with
  | .error e => ([ev], some e)
  | .ok quantized => (ev :: check_and_save_model quantized save_path, none)

/-- Embedding of `quantize_fp16` from `scripts/quantize.py`: decide
`disable_shape_infer` from `model.ByteSize() >= onnx.checker.MAXIMUM_PROTOBUF`,
convert to float16 with `keep_io_types=True`, re-topologically-sort the
graph (`gs.import_onnx` / `graph.toposort()` / `gs.export_onnx`), and
persist with `check_and_save_model`.  Returns the persisted model and the
event trace. -/
def quantize_fp16 (model : ModelProto) (save_path : String) :
    Except String (ModelProto × List Event) :=
  let disable_shape_infer := decide (MAXIMUM_PROTOBUF ≤ model.byteSize)
  match convert_float_to_float16 model true disable_shape_infer with
  | .error e => .error e
  | .ok model_fp16 =>
    let sorted : ModelProto := { model_fp16 with graph := model_fp16.graph.toposort }
    .ok (sorted,
      Event.convertedFp16 disable_shape_infer :: check_and_save_model sorted save_path)

/-- Embedding of `quantize_q4` from `scripts/quantize.py`: run `MatMul4BitsQuantizer` and
persist only when a save path was given; the in-memory result is returned
either way. -/
def quantize_q4 (qs : Quantizers) (model : ModelProto) (save_path : Option String)
    (block_size : Int) (is_symmetric : Bool) (accuracy_level : Option Int) :
    List Event × Except String ModelProto :=
  let ev := Event.calledQ4 save_path block_size is_symmetric accuracy_level
  match qs.q4process model block_size is_symmetric accuracy_level with
  | .error e => ([ev], .error e)
  | .ok quantized =>
    match save_path with
    | some p => (ev :: check_and_save_model quantized p, .ok quantized)
    | none => ([ev], .ok quantized)

/-- Embedding of `quantize_bnb4` from `scripts/quantize.py`: run `MatMulBnb4Quantizer`
and persist. -/
def quantize_bnb4 (qs : Quantizers) (model : ModelProto) (save_path : String)
    (block_size : Int) (quant_type : Int) : List Event × Option String :=
  let ev := Event.calledBnb4 block_size quant_type
  match qs.bnb4process model block_size quant_type with
  | .error e => ([ev], some e)
  | .ok quantized => (ev :: check_and_save_model quantized save_path, none)

/-! ### Output naming and the per-(file, mode) dispatch of `quantize` -/

/-- Embedding of `QUANTIZE_SUFFIX_MAPPING` from `scripts/quantize.py`: only `Q8` has an
entry. -/
def QUANTIZE_SUFFIX_MAPPING : QuantMode → Option String
  | .Q8 => some "quantized"
  | _ => none

/-- Embedding of `QUANTIZE_SUFFIX_MAPPING.get(mode, mode.value)`. -/
def quantizeSuffix (mode : QuantMode) : String :=
  (QUANTIZE_SUFFIX_MAPPING mode).getD mode.value

/-- The output file name for an input file stem and a mode:
`f"{file_name_without_extension}_{suffix}.onnx"`. -/
def outputFileName (stem : String) (mode : QuantMode) : String :=
  stem ++ "_" ++ quantizeSuffix mode ++ ".onnx"

/-- Embedding of `save_path = os.path.join(output_folder, f"{stem}_{suffix}.onnx")`. -/
def savePathFor (output_folder stem : String) (mode : QuantMode) : String :=
  output_folder ++ "/" ++ outputFileName stem mode

/-- The body of the inner loop of `quantize` in `scripts/quantize.py`: one
(file, mode) job.  Computes the save path, dispatches on the mode (fp16 /
q4 and q4f16 / bnb4 / the three 8-bit modes), resolving block sizes with
Python `or` defaults and — for `Q8` only — inspecting the operator set to
choose the weight type.  Returns the event trace together with the
exception escaping the job, if any (the source has no try/except here). -/
def processMode (args : QuantizationArguments) (qs : Quantizers)
    (output_folder stem : String) (mode : QuantMode) (model : ModelProto) :
    List Event × Option String :=
  let save_path := savePathFor output_folder stem mode
  match mode with
  | .FP16 =>
    match quantize_fp16 model save_path with
    | .error e => ([], some e)
    | .ok (_, evs) => (evs, none)
  | .Q4 | .Q4F16 =>
    let block_size := pyOr args.block_size 32
    let (evs, res) := quantize_q4 qs model
      (if mode = .Q4F16 then none else some save_path)
      block_size args.is_symmetric args.accuracy_level
    match res with
    | .error e => (evs, some e)
    | .ok q4_model =>
      if mode = .Q4F16 then
        match quantize_fp16 q4_model save_path with
        | .error e => (evs, some e)
        | .ok (_, evs2) => (evs ++ evs2, none)
      else (evs, none)
  | .BNB4 =>
    quantize_bnb4 qs model save_path (pyOr args.block_size 64)
      (pyIfNotNone args.quant_type MatMulBnb4Quantizer.NF4)
  | .Q8 | .QI8 | .QU8 =>
    let inv : List Event × QuantType :=
      match mode with
      | .Q8 =>
        let op_types := get_operators model
        ([Event.inspectedOperators],
          if "Conv" ∈ op_types then QuantType.QUInt8 else QuantType.QInt8)
      | .QI8 => ([], QuantType.QInt8)
      | _ => ([], QuantType.QUInt8)
    let (evs, err) := quantize_q8 qs model save_path
      args.per_channel args.reduce_range inv.2
    (inv.1 ++ evs, err)

/-- The mode loop of `quantize` for one input file.  No exception handling:
an exception raised by one job escapes, so the remaining modes are never
attempted.  Returns the per-mode traces of the attempted jobs and the
escaped exception, if any. -/
def quantizeModesLoop (args : QuantizationArguments) (qs : Quantizers)
    (output_folder stem : String) (model : ModelProto) :
    List QuantMode → List (QuantMode × List Event) × Option String
  | [] => ([], none)
  | mode :: rest =>
    match processMode args qs output_folder stem mode model with
    | (evs, some e) => ([(mode, evs)], some e)
    | (evs, none) =>
      let r := quantizeModesLoop args qs output_folder stem model rest
      ((mode, evs) :: r.1, r.2)

/-- The file loop of `quantize` in `scripts/quantize.py` (step 2; the step-1
argument/filesystem validation precedes any job and is outside the embedded
fragment).  Each mode reloads the model fresh, so jobs share no mutable
state; an exception raised by any job escapes `quantize` and the remaining
files are never attempted. -/
def quantize (args : QuantizationArguments) (qs : Quantizers)
    (output_folder : String) (modes : List QuantMode) :
    List (String × ModelProto) →
      List (String × List (QuantMode × List Event)) × Option String
  | [] => ([], none)
  | (stem, model) :: rest =>
    match quantizeModesLoop args qs output_folder stem model modes with
    | (recs, some e) => ([(stem, recs)], some e)
    | (recs, none) =>
      let r := quantize args qs output_folder modes rest
      ((stem, recs) :: r.1, r.2)

/-! ### The quantization path of `scripts/convert.py` -/

/-- The `FP16` branch of `quantize` in `scripts/convert.py`: first try
`float16.convert_float_to_float16` with shape inference enabled; on any
exception (most likely the 2GB size threshold), retry with
`disable_shape_infer=True` and save with externalized weights into a
companion file `os.path.basename(save_path) + '_data'`, appending
`save_path + '_data'` and then (after the branch) `save_path` to the
outputs list.  Returns the produced output paths. -/
def convertFp16Branch (loaded_model : ModelProto) (save_path : String) :
    Except String (List String) :=
  match convert_float_to_float16 loaded_model true false with
  | .ok _ => .ok [save_path]
  | .error _ =>
    match convert_float_to_float16 loaded_model true true with
    | .ok _ => .ok [save_path ++ "_data", save_path]
    | .error e => .error e

/-- The body of the file loop of `quantize` in `scripts/convert.py` for one
loaded model.  For the three 8-bit modes the operator set is collected
unconditionally (it is recorded in `per_model_config`), the weight type is
chosen from it only for `Q8`, and `quantize_dynamic` runs; `Q4` and `BNB4`
default their block sizes with `is not None` checks; `FP16` uses the
try/except externalization branch; any other mode raises
`ValueError(f'Invalid quantization mode: {mode}')` (the `QuantMode` enum of
`convert.py` itself has no `Q4F16` member).  Returns the event trace and
the escaped exception, if any. -/
def convertProcessFile (qs : Quantizers) (mode : QuantMode)
    (directory_path stem : String) (per_channel reduce_range : Bool)
    (block_size : Option Int) (is_symmetric : Bool)
    (accuracy_level : Option Int) (quant_type : Option Int)
    (loaded_model : ModelProto) : List Event × Option String :=
  let suffix := if mode = .Q8 then "quantized" else mode.value
  let save_path := directory_path ++ "/" ++ stem ++ "_" ++ suffix ++ ".onnx"
  match mode with
  | .Q8 | .QI8 | .QU8 =>
    let op_types := get_operators loaded_model
    let weight_type :=
      match mode with
      | .Q8 => if "Conv" ∈ op_types then QuantType.QUInt8 else QuantType.QInt8
      | .QI8 => QuantType.QInt8
      | _ => QuantType.QUInt8
    match qs.quantizeDynamic loaded_model weight_type with
    | .error e =>
      ([Event.inspectedOperators, Event.calledQuantizeDynamic weight_type], some e)
    | .ok _ =>
      ([Event.inspectedOperators, Event.calledQuantizeDynamic weight_type,
        Event.wrote save_path], none)
  | .Q4 =>
    let bs := pyIfNotNone block_size 32
    match qs.q4process loaded_model bs is_symmetric accuracy_level with
    | .error e => ([Event.calledQ4 (some save_path) bs is_symmetric accuracy_level], some e)
    | .ok quantized =>
      (Event.calledQ4 (some save_path) bs is_symmetric accuracy_level ::
        check_and_save_model quantized save_path, none)
  | .BNB4 =>
    let bs := pyIfNotNone block_size 64
    let qt := pyIfNotNone quant_type MatMulBnb4Quantizer.NF4
    match qs.bnb4process loaded_model bs qt with
    | .error e => ([Event.calledBnb4 bs qt], some e)
    | .ok quantized =>
      (Event.calledBnb4 bs qt :: check_and_save_model quantized save_path, none)
  | .FP16 =>
    match convertFp16Branch loaded_model save_path with
    | .error e => ([], some e)
    | .ok outs => (outs.map Event.wrote, none)
  | .Q4F16 => ([], some "Invalid quantization mode: q4f16")

/-- The file loop of `quantize` in `scripts/convert.py`, abstracted over the
per-file body.  There is no try/except inside this loop: the first
exception escapes and the remaining files of the mode are never attempted.
Returns the per-file traces of the attempted files and the escaped
exception, if any. -/
def convertQuantizeLoop (run : String × ModelProto → List Event × Option String) :
    List (String × ModelProto) → List (String × List Event) × Option String
  | [] => ([], none)
  | f :: rest =>
    match run f with
    | (evs, some e) => ([(f.1, evs)], some e)
    | (evs, none) =>
      let r := convertQuantizeLoop run rest
      ((f.1, evs) :: r.1, r.2)

/-- The quantization loop of `main` in `scripts/convert.py` (step 2): for
each requested mode, run `quantize` over all exported files inside a
`try/except Exception` that records the failure ("Failed to quantize model
with mode ...") and continues with the next mode.  The per-mode outcome —
the attempted files' traces and the caught exception, if any — is recorded
for every mode. -/
def convertMainQuantize
    (runMode : QuantMode → List (String × List Event) × Option String) :
    List QuantMode → List (QuantMode × (List (String × List Event) × Option String))
  | [] => []
  | m :: rest => (m, runMode m) :: convertMainQuantize runMode rest

/-! ### Helper lemmas -/

theorem nodesOperators_top_level (l : List Node)
    (h : ∀ n ∈ l, ∀ p ∈ n.attrs, p.1 ≠ AttrKind.GRAPH) :
    nodesOperators l = (l.map Node.op_type).toFinset := by
  induction l with
  | nil => rfl
  | cons n rest ih =>
    have ha := h n (List.mem_cons_self _ _)
    obtain ⟨op, i, o, attrs⟩ := n
    rw [nodesOperators, nodeOperators, attrsOperators_of_no_graph attrs ha,
      ih fun x hx => h x (List.mem_cons_of_mem _ hx)]
    ext x
    simp [Node.op_type]

theorem check_and_save_model_events (m : ModelProto) (p : String) :
    ∀ e ∈ check_and_save_model m p,
      e = Event.wrote p ∨ e = Event.wrote (p ++ "_data") := by
  intro e he
  unfold check_and_save_model at he
  split at he <;> simp_all

theorem writesOf_check_and_save_model (m : ModelProto) (p : String) :
    writesOf (check_and_save_model m p) =
      if MAXIMUM_PROTOBUF ≤ m.byteSize then [p, p ++ "_data"] else [p] := by
  unfold check_and_save_model writesOf
  split <;> rfl

theorem check_and_save_model_only_writes (m : ModelProto) (p : String) :
    ∀ e ∈ check_and_save_model m p, ∃ q, e = Event.wrote q := by
  intro e he
  rcases check_and_save_model_events m p e he with h | h
  · exact ⟨p, h⟩
  · exact ⟨p ++ "_data", h⟩

theorem processMode_Q8 (args : QuantizationArguments) (qs : Quantizers)
    (output_folder stem : String) (model : ModelProto) :
    processMode args qs output_folder stem .Q8 model =
      (Event.inspectedOperators ::
        (quantize_q8 qs model (savePathFor output_folder stem .Q8)
          args.per_channel args.reduce_range
          (if "Conv" ∈ get_operators model then QuantType.QUInt8 else QuantType.QInt8)).1,
       (quantize_q8 qs model (savePathFor output_folder stem .Q8)
          args.per_channel args.reduce_range
          (if "Conv" ∈ get_operators model then QuantType.QUInt8 else QuantType.QInt8)).2) := rfl

theorem quantize_q8_events (qs : Quantizers) (model : ModelProto)
    (save_path : String) (pc rr : Option Bool) (wt : QuantType) :
    (quantize_q8 qs model save_path pc rr wt).1 =
      Event.calledQ8 wt QuantType.QUInt8 pc rr ::
        (match qs.q8process model wt QuantType.QUInt8 pc rr with
          | .error _ => []
          | .ok q => check_and_save_model q save_path) := by
  unfold quantize_q8
  cases qs.q8process model wt QuantType.QUInt8 pc rr <;> rfl

theorem quantize_fp16_eq (model : ModelProto) (sp : String) :
    quantize_fp16 model sp =
      .ok ({ model with graph := model.graph.toposort },
        Event.convertedFp16 (decide (MAXIMUM_PROTOBUF ≤ model.byteSize)) ::
          check_and_save_model { model with graph := model.graph.toposort } sp) := by
  by_cases h : MAXIMUM_PROTOBUF ≤ model.byteSize <;>
    simp [quantize_fp16, convert_float_to_float16, h]

theorem processMode_FP16 (args : QuantizationArguments) (qs : Quantizers)
    (output_folder stem : String) (model : ModelProto) :
    processMode args qs output_folder stem .FP16 model =
      (Event.convertedFp16 (decide (MAXIMUM_PROTOBUF ≤ model.byteSize)) ::
        check_and_save_model { model with graph := model.graph.toposort }
          (savePathFor output_folder stem .FP16), none) := by
  show (match quantize_fp16 model (savePathFor output_folder stem .FP16) with
        | .error e => ([], some e)
        | .ok (_, evs) => (evs, none)) = _
  rw [quantize_fp16_eq]

theorem processMode_QI8 (args : QuantizationArguments) (qs : Quantizers)
    (output_folder stem : String) (model : ModelProto) :
    processMode args qs output_folder stem .QI8 model =
      quantize_q8 qs model (savePathFor output_folder stem .QI8)
        args.per_channel args.reduce_range QuantType.QInt8 := rfl

theorem processMode_QU8 (args : QuantizationArguments) (qs : Quantizers)
    (output_folder stem : String) (model : ModelProto) :
    processMode args qs output_folder stem .QU8 model =
      quantize_q8 qs model (savePathFor output_folder stem .QU8)
        args.per_channel args.reduce_range QuantType.QUInt8 := rfl

theorem processMode_BNB4 (args : QuantizationArguments) (qs : Quantizers)
    (output_folder stem : String) (model : ModelProto) :
    processMode args qs output_folder stem .BNB4 model =
      quantize_bnb4 qs model (savePathFor output_folder stem .BNB4)
        (pyOr args.block_size 64)
        (pyIfNotNone args.quant_type MatMulBnb4Quantizer.NF4) := rfl

theorem quantize_q4_result (qs : Quantizers) (model : ModelProto)
    (sp : Option String) (bs : Int) (sym : Bool) (acc : Option Int) :
    (quantize_q4 qs model sp bs sym acc).2 = qs.q4process model bs sym acc := by
  unfold quantize_q4
  cases qs.q4process model bs sym acc with
  | error e => rfl
  | ok q => cases sp <;> rfl

theorem quantize_q4_events (qs : Quantizers) (model : ModelProto)
    (sp : Option String) (bs : Int) (sym : Bool) (acc : Option Int) :
    (quantize_q4 qs model sp bs sym acc).1 =
      Event.calledQ4 sp bs sym acc ::
        (match qs.q4process model bs sym acc with
          | .error _ => []
          | .ok q =>
            match sp with
            | some p => check_and_save_model q p
            | none => []) := by
  unfold quantize_q4
  cases qs.q4process model bs sym acc with
  | error e => rfl
  | ok q => cases sp <;> rfl

theorem processMode_Q4 (args : QuantizationArguments) (qs : Quantizers)
    (output_folder stem : String) (model : ModelProto) :
    processMode args qs output_folder stem .Q4 model =
      ((quantize_q4 qs model (some (savePathFor output_folder stem .Q4))
          (pyOr args.block_size 32) args.is_symmetric args.accuracy_level).1,
        match qs.q4process model (pyOr args.block_size 32)
            args.is_symmetric args.accuracy_level with
          | .error e => some e
          | .ok _ => none) := by
  cases hq : qs.q4process model (pyOr args.block_size 32)
      args.is_symmetric args.accuracy_level with
  | error e => simp [processMode, quantize_q4, hq]
  | ok m4 => simp [processMode, quantize_q4, hq]

theorem processMode_Q4F16 (args : QuantizationArguments) (qs : Quantizers)
    (output_folder stem : String) (model : ModelProto) :
    processMode args qs output_folder stem .Q4F16 model =
      match qs.q4process model (pyOr args.block_size 32)
          args.is_symmetric args.accuracy_level with
        | .error e =>
          ((quantize_q4 qs model none (pyOr args.block_size 32)
              args.is_symmetric args.accuracy_level).1, some e)
        | .ok m4 =>
          ((quantize_q4 qs model none (pyOr args.block_size 32)
              args.is_symmetric args.accuracy_level).1 ++
            Event.convertedFp16 (decide (MAXIMUM_PROTOBUF ≤ m4.byteSize)) ::
              check_and_save_model { m4 with graph := m4.graph.toposort }
                (savePathFor output_folder stem .Q4F16),
            none) := by
  cases hq : qs.q4process model (pyOr args.block_size 32)
      args.is_symmetric args.accuracy_level with
  | error e => simp [processMode, quantize_q4, hq]
  | ok m4 => simp [processMode, quantize_q4, hq, quantize_fp16_eq]

/-- Trivial engine stand-ins for concrete evaluations: every external
quantizer succeeds and returns the model unchanged. -/
def idQuantizers : Quantizers where
  q8process := fun m _ _ _ _ => .ok m
  q4process := fun m _ _ _ => .ok m
  bnb4process := fun m _ _ => .ok m
  quantizeDynamic := fun _ _ => .ok ()

theorem quantize_q8_trace_calledQ8 (qs : Quantizers) (model : ModelProto)
    (sp : String) (pc rr : Option Bool) (wt : QuantType) :
    Event.calledQ8 wt QuantType.QUInt8 pc rr ∈ (quantize_q8 qs model sp pc rr wt).1 ∧
    ∀ wt' aqt' pc' rr',
      Event.calledQ8 wt' aqt' pc' rr' ∈ (quantize_q8 qs model sp pc rr wt).1 →
        wt' = wt ∧ aqt' = QuantType.QUInt8 ∧ pc' = pc ∧ rr' = rr := by
  rw [quantize_q8_events]
  refine ⟨List.mem_cons_self _ _, ?_⟩
  intro wt' aqt' pc' rr' h
  rcases List.mem_cons.mp h with h1 | h2
  · injection h1 with a b c d
    exact ⟨a, b, c, d⟩
  · cases hq : qs.q8process model wt QuantType.QUInt8 pc rr with
    | error e =>
      rw [hq] at h2
      exact absurd h2 (List.not_mem_nil _)
    | ok q =>
      rw [hq] at h2
      obtain ⟨p, hp⟩ := check_and_save_model_only_writes q sp _ h2
      exact absurd hp (by simp)

/-! ### Claim theorems -/

/-- C2: in EightBit (q8) auto mode, the weight type passed to the 8-bit
quantizer is unsigned 8-bit iff the operator set collected from the graph
(nested subgraphs included) contains "Conv", signed 8-bit otherwise, and
the activation type passed alongside is unsigned 8-bit in every case. -/
theorem q8_auto_weight_type_selection (args : QuantizationArguments)
    (qs : Quantizers) (output_folder stem : String) (model : ModelProto) :
    Event.calledQ8
        (if "Conv" ∈ get_operators model then QuantType.QUInt8 else QuantType.QInt8)
        QuantType.QUInt8 args.per_channel args.reduce_range
      ∈ (processMode args qs output_folder stem .Q8 model).1 ∧
    ∀ wt aqt pc rr,
      Event.calledQ8 wt aqt pc rr ∈ (processMode args qs output_folder stem .Q8 model).1 →
        aqt = QuantType.QUInt8 ∧
        (wt = QuantType.QUInt8 ↔ "Conv" ∈ get_operators model) := by
  have hq8 := quantize_q8_trace_calledQ8 qs model (savePathFor output_folder stem .Q8)
    args.per_channel args.reduce_range
    (if "Conv" ∈ get_operators model then QuantType.QUInt8 else QuantType.QInt8)
  constructor
  · rw [processMode_Q8]
    exact List.mem_cons_of_mem _ hq8.1
  · intro wt aqt pc rr h
    rw [processMode_Q8] at h
    replace h : Event.calledQ8 wt aqt pc rr ∈
        Event.inspectedOperators ::
          (quantize_q8 qs model (savePathFor output_folder stem .Q8)
            args.per_channel args.reduce_range
            (if "Conv" ∈ get_operators model then QuantType.QUInt8
              else QuantType.QInt8)).1 := h
    rcases List.mem_cons.mp h with h1 | h2
    · exact absurd h1 (by simp)
    · obtain ⟨hwt, haqt, -, -⟩ := hq8.2 _ _ _ _ h2
      refine ⟨haqt, ?_⟩
      rw [hwt]
      by_cases hc : "Conv" ∈ get_operators model <;> simp [hc]

/-- Witness for C2 at a concrete one-node "Conv" graph: the auto-selected
weight type is unsigned. -/
theorem q8_auto_weight_type_selection_witness :
    Event.calledQ8 QuantType.QUInt8 QuantType.QUInt8 none none ∈
      (processMode {} idQuantizers "out" "model" .Q8
        ⟨⟨[Node.mk "Conv" [] [] []]⟩, 0⟩).1 := by
  have h := (q8_auto_weight_type_selection {} idQuantizers "out" "model"
    ⟨⟨[Node.mk "Conv" [] [] []]⟩, 0⟩).1
  rwa [if_pos (by decide)] at h

theorem string_data_append (a b : String) : (a ++ b).data = a.data ++ b.data := rfl

theorem savePathFor_suffix_inj (folder stem : String) (m₁ m₂ : QuantMode)
    (h : savePathFor folder stem m₁ = savePathFor folder stem m₂) :
    quantizeSuffix m₁ = quantizeSuffix m₂ := by
  have hd := congrArg String.data h
  simp only [savePathFor, outputFileName, string_data_append, List.append_assoc] at hd
  replace hd := List.append_cancel_left hd
  replace hd := List.append_cancel_left hd
  replace hd := List.append_cancel_left hd
  replace hd := List.append_cancel_left hd
  replace hd := List.append_cancel_right hd
  cases hs₁ : quantizeSuffix m₁
  cases hs₂ : quantizeSuffix m₂
  rw [hs₁, hs₂] at hd
  exact congrArg String.mk hd

/-- C6: the output file name is `S_<suffix(M)>.onnx` where the suffix is
"quantized" for EightBit (q8) and the mode's own name string otherwise; the
suffix function is injective over the mode enumeration, so distinct modes on
the same input file always write distinct output paths. -/
theorem output_naming_collision_free :
    (∀ m₁ m₂ : QuantMode, quantizeSuffix m₁ = quantizeSuffix m₂ → m₁ = m₂) ∧
    quantizeSuffix .Q8 = "quantized" ∧
    (∀ m : QuantMode, m ≠ .Q8 → quantizeSuffix m = m.value) ∧
    (∀ stem m, outputFileName stem m = stem ++ "_" ++ quantizeSuffix m ++ ".onnx") ∧
    (∀ folder stem (m₁ m₂ : QuantMode), m₁ ≠ m₂ →
      savePathFor folder stem m₁ ≠ savePathFor folder stem m₂) := by
  have hinj : ∀ m₁ m₂ : QuantMode, quantizeSuffix m₁ = quantizeSuffix m₂ → m₁ = m₂ := by
    decide
  refine ⟨hinj, rfl, ?_, fun _ _ => rfl, ?_⟩
  · intro m hm
    cases m
    case Q8 => exact absurd rfl hm
    all_goals rfl
  · intro folder stem m₁ m₂ hne heq
    exact hne (hinj m₁ m₂ (savePathFor_suffix_inj folder stem m₁ m₂ heq))

/-- Witness for C6: two distinct modes on the same stem give distinct
paths. -/
theorem output_naming_collision_free_witness :
    savePathFor "o" "model" .FP16 ≠ savePathFor "o" "model" .Q4 ∧
    quantizeSuffix .Q4F16 = QuantMode.value .Q4F16 :=
  ⟨output_naming_collision_free.2.2.2.2 "o" "model" .FP16 .Q4 (by decide),
   output_naming_collision_free.2.2.1 .Q4F16 (by decide)⟩

theorem quantize_bnb4_events (qs : Quantizers) (model : ModelProto)
    (sp : String) (bs qt : Int) :
    (quantize_bnb4 qs model sp bs qt).1 =
      Event.calledBnb4 bs qt ::
        (match qs.bnb4process model bs qt with
          | .error _ => []
          | .ok q => check_and_save_model q sp) := by
  unfold quantize_bnb4
  cases qs.bnb4process model bs qt <;> rfl

theorem quantize_q4_events_none (qs : Quantizers) (model : ModelProto)
    (bs : Int) (sym : Bool) (acc : Option Int) :
    (quantize_q4 qs model none bs sym acc).1 = [Event.calledQ4 none bs sym acc] := by
  rw [quantize_q4_events]
  cases qs.q4process model bs sym acc <;> rfl

theorem pyOr_some_nonzero {v : Int} (d : Int) (h : v ≠ 0) : pyOr (some v) d = v := by
  simp [pyOr, h]

theorem pyOr_some_zero (d : Int) : pyOr (some 0) d = d := by
  simp [pyOr]

/-- The Q4 job's trace starts with the `MatMul4BitsQuantizer` invocation at
the resolved block size and the mode's own save path. -/
theorem calledQ4_mem_processMode_Q4 (args : QuantizationArguments) (qs : Quantizers)
    (folder stem : String) (model : ModelProto) :
    Event.calledQ4 (some (savePathFor folder stem .Q4)) (pyOr args.block_size 32)
        args.is_symmetric args.accuracy_level
      ∈ (processMode args qs folder stem .Q4 model).1 := by
  rw [processMode_Q4]
  show _ ∈ (quantize_q4 qs model (some (savePathFor folder stem .Q4))
    (pyOr args.block_size 32) args.is_symmetric args.accuracy_level).1
  rw [quantize_q4_events]
  exact List.mem_cons_self _ _

/-- The Q4F16 job's trace starts with the `MatMul4BitsQuantizer` invocation
at the resolved block size and no save path. -/
theorem calledQ4_mem_processMode_Q4F16 (args : QuantizationArguments) (qs : Quantizers)
    (folder stem : String) (model : ModelProto) :
    Event.calledQ4 none (pyOr args.block_size 32)
        args.is_symmetric args.accuracy_level
      ∈ (processMode args qs folder stem .Q4F16 model).1 := by
  rw [processMode_Q4F16]
  cases hq : qs.q4process model (pyOr args.block_size 32)
      args.is_symmetric args.accuracy_level with
  | error e =>
    show _ ∈ (quantize_q4 qs model none (pyOr args.block_size 32)
      args.is_symmetric args.accuracy_level).1
    rw [quantize_q4_events_none]
    exact List.mem_cons_self _ _
  | ok m4 =>
    refine List.mem_append_left _ ?_
    rw [quantize_q4_events_none]
    exact List.mem_cons_self _ _

/-- The BNB4 job's trace starts with the `MatMulBnb4Quantizer` invocation at
the resolved block size and quant type. -/
theorem calledBnb4_mem_processMode_BNB4 (args : QuantizationArguments) (qs : Quantizers)
    (folder stem : String) (model : ModelProto) :
    Event.calledBnb4 (pyOr args.block_size 64)
        (pyIfNotNone args.quant_type MatMulBnb4Quantizer.NF4)
      ∈ (processMode args qs folder stem .BNB4 model).1 := by
  rw [processMode_BNB4, quantize_bnb4_events]
  exact List.mem_cons_self _ _

theorem calledQ4_unique_processMode_Q4 (args : QuantizationArguments) (qs : Quantizers)
    (folder stem : String) (model : ModelProto) :
    ∀ sp bs sym acc,
      Event.calledQ4 sp bs sym acc ∈ (processMode args qs folder stem .Q4 model).1 →
        bs = pyOr args.block_size 32 := by
  intro sp bs sym acc h
  rw [processMode_Q4] at h
  replace h : Event.calledQ4 sp bs sym acc ∈
      (quantize_q4 qs model (some (savePathFor folder stem .Q4))
        (pyOr args.block_size 32) args.is_symmetric args.accuracy_level).1 := h
  rw [quantize_q4_events] at h
  rcases List.mem_cons.mp h with h1 | h2
  · injection h1
  · cases hq : qs.q4process model (pyOr args.block_size 32)
        args.is_symmetric args.accuracy_level with
    | error e =>
      rw [hq] at h2
      exact absurd h2 (List.not_mem_nil _)
    | ok q =>
      rw [hq] at h2
      obtain ⟨p, hp⟩ := check_and_save_model_only_writes q _ _ h2
      exact absurd hp (by simp)

theorem calledQ4_unique_processMode_Q4F16 (args : QuantizationArguments) (qs : Quantizers)
    (folder stem : String) (model : ModelProto) :
    ∀ sp bs sym acc,
      Event.calledQ4 sp bs sym acc ∈ (processMode args qs folder stem .Q4F16 model).1 →
        bs = pyOr args.block_size 32 ∧ sp = none := by
  intro sp bs sym acc h
  rw [processMode_Q4F16] at h
  cases hq : qs.q4process model (pyOr args.block_size 32)
      args.is_symmetric args.accuracy_level with
  | error e =>
    rw [hq] at h
    replace h : Event.calledQ4 sp bs sym acc ∈
        (quantize_q4 qs model none (pyOr args.block_size 32)
          args.is_symmetric args.accuracy_level).1 := h
    rw [quantize_q4_events_none] at h
    rcases List.mem_singleton.mp h with h1
    injection h1 with a b
    exact ⟨b, a⟩
  | ok m4 =>
    rw [hq] at h
    replace h : Event.calledQ4 sp bs sym acc ∈
        (quantize_q4 qs model none (pyOr args.block_size 32)
          args.is_symmetric args.accuracy_level).1 ++
          Event.convertedFp16 (decide (MAXIMUM_PROTOBUF ≤ m4.byteSize)) ::
            check_and_save_model { m4 with graph := m4.graph.toposort }
              (savePathFor folder stem .Q4F16) := h
    rcases List.mem_append.mp h with h1 | h2
    · rw [quantize_q4_events_none] at h1
      rcases List.mem_singleton.mp h1 with h3
      injection h3 with a b
      exact ⟨b, a⟩
    · rcases List.mem_cons.mp h2 with h3 | h4
      · exact absurd h3 (by simp)
      · obtain ⟨p, hp⟩ := check_and_save_model_only_writes _ _ _ h4
        exact absurd hp (by simp)

theorem calledBnb4_unique_processMode_BNB4 (args : QuantizationArguments) (qs : Quantizers)
    (folder stem : String) (model : ModelProto) :
    ∀ bs qt,
      Event.calledBnb4 bs qt ∈ (processMode args qs folder stem .BNB4 model).1 →
        bs = pyOr args.block_size 64 := by
  intro bs qt h
  rw [processMode_BNB4, quantize_bnb4_events] at h
  rcases List.mem_cons.mp h with h1 | h2
  · injection h1
  · cases hq : qs.bnb4process model (pyOr args.block_size 64)
        (pyIfNotNone args.quant_type MatMulBnb4Quantizer.NF4) with
    | error e =>
      rw [hq] at h2
      exact absurd h2 (List.not_mem_nil _)
    | ok q =>
      rw [hq] at h2
      obtain ⟨p, hp⟩ := check_and_save_model_only_writes q _ _ h2
      exact absurd hp (by simp)

/-- C5 counterexample: the claim "a user-supplied block size is used as
given" fails at the explicit value 0.  With `block_size = 0` supplied, the
FourBit job invokes the quantizer with block size 32, not 0 (Python's
`block_size or 32` treats 0 as absent). -/
theorem block_size_precedence_counterexample :
    Event.calledQ4 (some (savePathFor "o" "m" .Q4)) 32 true none
      ∈ (processMode { block_size := some 0 } idQuantizers "o" "m" .Q4 ⟨⟨[]⟩, 0⟩).1 ∧
    Event.calledQ4 (some (savePathFor "o" "m" .Q4)) 0 true none
      ∉ (processMode { block_size := some 0 } idQuantizers "o" "m" .Q4 ⟨⟨[]⟩, 0⟩).1 := by
  constructor
  · have h := calledQ4_mem_processMode_Q4 { block_size := some 0 } idQuantizers "o" "m" ⟨⟨[]⟩, 0⟩
    rwa [pyOr_some_zero] at h
  · intro h
    have h32 := calledQ4_unique_processMode_Q4 { block_size := some 0 } idQuantizers
      "o" "m" ⟨⟨[]⟩, 0⟩ _ _ _ _ h
    rw [pyOr_some_zero] at h32
    exact absurd h32 (by decide)

/-- C5 amended: a **nonzero** user-supplied block size is used as given for
FourBit / FourBitThenHalf (and FourBitBnb); an absent *or zero* one
resolves to 32 for FourBit / FourBitThenHalf and to 64 for FourBitBnb; in
particular an explicit block size 16 yields 16 and an absent one yields
32. -/
theorem block_size_precedence_amended (args : QuantizationArguments)
    (qs : Quantizers) (folder stem : String) (model : ModelProto) (v : Int) :
    (args.block_size = some v → v ≠ 0 →
      Event.calledQ4 (some (savePathFor folder stem .Q4)) v
          args.is_symmetric args.accuracy_level
        ∈ (processMode args qs folder stem .Q4 model).1 ∧
      Event.calledQ4 none v args.is_symmetric args.accuracy_level
        ∈ (processMode args qs folder stem .Q4F16 model).1 ∧
      Event.calledBnb4 v (pyIfNotNone args.quant_type MatMulBnb4Quantizer.NF4)
        ∈ (processMode args qs folder stem .BNB4 model).1) ∧
    ((args.block_size = none ∨ args.block_size = some 0) →
      Event.calledQ4 (some (savePathFor folder stem .Q4)) 32
          args.is_symmetric args.accuracy_level
        ∈ (processMode args qs folder stem .Q4 model).1 ∧
      Event.calledQ4 none 32 args.is_symmetric args.accuracy_level
        ∈ (processMode args qs folder stem .Q4F16 model).1 ∧
      Event.calledBnb4 64 (pyIfNotNone args.quant_type MatMulBnb4Quantizer.NF4)
        ∈ (processMode args qs folder stem .BNB4 model).1) := by
  constructor
  · intro hbs hv
    have h32 : pyOr args.block_size 32 = v := by rw [hbs, pyOr_some_nonzero _ hv]
    have h64 : pyOr args.block_size 64 = v := by rw [hbs, pyOr_some_nonzero _ hv]
    refine ⟨?_, ?_, ?_⟩
    · have h := calledQ4_mem_processMode_Q4 args qs folder stem model
      rwa [h32] at h
    · have h := calledQ4_mem_processMode_Q4F16 args qs folder stem model
      rwa [h32] at h
    · have h := calledBnb4_mem_processMode_BNB4 args qs folder stem model
      rwa [h64] at h
  · intro hbs
    have h32 : pyOr args.block_size 32 = 32 := by
      rcases hbs with h | h
      · rw [h]; rfl
      · rw [h, pyOr_some_zero]
    have h64 : pyOr args.block_size 64 = 64 := by
      rcases hbs with h | h
      · rw [h]; rfl
      · rw [h, pyOr_some_zero]
    refine ⟨?_, ?_, ?_⟩
    · have h := calledQ4_mem_processMode_Q4 args qs folder stem model
      rwa [h32] at h
    · have h := calledQ4_mem_processMode_Q4F16 args qs folder stem model
      rwa [h32] at h
    · have h := calledBnb4_mem_processMode_BNB4 args qs folder stem model
      rwa [h64] at h

/-- Witness for the amended C5: block size 16 supplied explicitly is used
as given, and an absent block size resolves to 32. -/
theorem block_size_precedence_amended_witness :
    Event.calledQ4 (some (savePathFor "o" "m" .Q4)) 16 true none
      ∈ (processMode { block_size := some 16 } idQuantizers "o" "m" .Q4 ⟨⟨[]⟩, 0⟩).1 ∧
    Event.calledQ4 (some (savePathFor "o" "m" .Q4)) 32 true none
      ∈ (processMode {} idQuantizers "o" "m" .Q4 ⟨⟨[]⟩, 0⟩).1 :=
  ⟨((block_size_precedence_amended { block_size := some 16 } idQuantizers
      "o" "m" ⟨⟨[]⟩, 0⟩ 16).1 rfl (by decide)).1,
   ((block_size_precedence_amended {} idQuantizers
      "o" "m" ⟨⟨[]⟩, 0⟩ 0).2 (Or.inl rfl)).1⟩

/-- C10: an explicit `block_size = 0` silently falls back to the mode
defaults: the FourBit / FourBitThenHalf quantizer is invoked with block
size 32 and the FourBitBnb quantizer with 64; the resolved block size is
never 0. -/
theorem zero_block_size_falls_back (args : QuantizationArguments)
    (qs : Quantizers) (folder stem : String) (model : ModelProto)
    (hz : args.block_size = some 0) :
    Event.calledQ4 (some (savePathFor folder stem .Q4)) 32
        args.is_symmetric args.accuracy_level
      ∈ (processMode args qs folder stem .Q4 model).1 ∧
    Event.calledQ4 none 32 args.is_symmetric args.accuracy_level
      ∈ (processMode args qs folder stem .Q4F16 model).1 ∧
    Event.calledBnb4 64 (pyIfNotNone args.quant_type MatMulBnb4Quantizer.NF4)
      ∈ (processMode args qs folder stem .BNB4 model).1 ∧
    (∀ sp bs sym acc,
      Event.calledQ4 sp bs sym acc ∈ (processMode args qs folder stem .Q4 model).1 →
        bs ≠ 0) ∧
    (∀ sp bs sym acc,
      Event.calledQ4 sp bs sym acc ∈ (processMode args qs folder stem .Q4F16 model).1 →
        bs ≠ 0) ∧
    (∀ bs qt,
      Event.calledBnb4 bs qt ∈ (processMode args qs folder stem .BNB4 model).1 →
        bs ≠ 0) := by
  have h32 : pyOr args.block_size 32 = 32 := by rw [hz, pyOr_some_zero]
  have h64 : pyOr args.block_size 64 = 64 := by rw [hz, pyOr_some_zero]
  refine ⟨?_, ?_, ?_, ?_, ?_, ?_⟩
  · have h := calledQ4_mem_processMode_Q4 args qs folder stem model
    rwa [h32] at h
  · have h := calledQ4_mem_processMode_Q4F16 args qs folder stem model
    rwa [h32] at h
  · have h := calledBnb4_mem_processMode_BNB4 args qs folder stem model
    rwa [h64] at h
  · intro sp bs sym acc h
    have hb := calledQ4_unique_processMode_Q4 args qs folder stem model sp bs sym acc h
    rw [h32] at hb
    simp [hb]
  · intro sp bs sym acc h
    have hb := (calledQ4_unique_processMode_Q4F16 args qs folder stem model sp bs sym acc h).1
    rw [h32] at hb
    simp [hb]
  · intro bs qt h
    have hb := calledBnb4_unique_processMode_BNB4 args qs folder stem model bs qt h
    rw [h64] at hb
    simp [hb]

/-- Witness for C10: with `block_size = 0` supplied, the bnb job resolves to
block size 64. -/
theorem zero_block_size_falls_back_witness :
    Event.calledBnb4 64 1
      ∈ (processMode { block_size := some 0 } idQuantizers "o" "m" .BNB4 ⟨⟨[]⟩, 0⟩).1 :=
  (zero_block_size_falls_back { block_size := some 0 } idQuantizers
    "o" "m" ⟨⟨[]⟩, 0⟩ rfl).2.2.1

/-- C4: in FourBitThenHalf (q4f16) mode the 4-bit block quantizer is invoked
with no save path, its in-memory result is passed directly to the
half-precision converter, and exactly one file — the final half-precision
result — is written; the intermediate 4-bit-only graph is never
persisted. -/
theorem q4f16_chaining (args : QuantizationArguments) (qs : Quantizers)
    (folder stem : String) (model m4 : ModelProto)
    (hq4 : qs.q4process model (pyOr args.block_size 32)
      args.is_symmetric args.accuracy_level = .ok m4)
    (hsize : m4.byteSize < MAXIMUM_PROTOBUF) :
    (processMode args qs folder stem .Q4F16 model).2 = none ∧
    Event.calledQ4 none (pyOr args.block_size 32)
        args.is_symmetric args.accuracy_level
      ∈ (processMode args qs folder stem .Q4F16 model).1 ∧
    (∀ sp bs sym acc,
      Event.calledQ4 sp bs sym acc ∈ (processMode args qs folder stem .Q4F16 model).1 →
        sp = none) ∧
    (∃ m' evs2, quantize_fp16 m4 (savePathFor folder stem .Q4F16) = .ok (m', evs2) ∧
      (processMode args qs folder stem .Q4F16 model).1 =
        Event.calledQ4 none (pyOr args.block_size 32)
          args.is_symmetric args.accuracy_level :: evs2) ∧
    writesOf (processMode args qs folder stem .Q4F16 model).1 =
      [savePathFor folder stem .Q4F16] := by
  have hnolim : ¬ MAXIMUM_PROTOBUF ≤ ModelProto.byteSize
      { m4 with graph := m4.graph.toposort } := not_le.mpr hsize
  have htrace : (processMode args qs folder stem .Q4F16 model).1 =
      Event.calledQ4 none (pyOr args.block_size 32)
          args.is_symmetric args.accuracy_level ::
        Event.convertedFp16 (decide (MAXIMUM_PROTOBUF ≤ m4.byteSize)) ::
          check_and_save_model { m4 with graph := m4.graph.toposort }
            (savePathFor folder stem .Q4F16) := by
    rw [processMode_Q4F16, hq4]
    rw [quantize_q4_events_none]
    rfl
  refine ⟨?_, ?_, ?_, ?_, ?_⟩
  · rw [processMode_Q4F16, hq4]
  · rw [htrace]
    exact List.mem_cons_self _ _
  · exact fun sp bs sym acc h =>
      (calledQ4_unique_processMode_Q4F16 args qs folder stem model sp bs sym acc h).2
  · exact ⟨_, _, quantize_fp16_eq m4 (savePathFor folder stem .Q4F16), htrace⟩
  · rw [htrace]
    show writesOf (check_and_save_model { m4 with graph := m4.graph.toposort }
      (savePathFor folder stem .Q4F16)) = _
    rw [writesOf_check_and_save_model, if_neg hnolim]

/-- Witness for C4 at a concrete small model: the q4f16 job writes exactly
the final fp16 file. -/
theorem q4f16_chaining_witness :
    writesOf (processMode {} idQuantizers "o" "m" .Q4F16 ⟨⟨[]⟩, 0⟩).1 =
      [savePathFor "o" "m" .Q4F16] :=
  (q4f16_chaining {} idQuantizers "o" "m" ⟨⟨[]⟩, 0⟩ ⟨⟨[]⟩, 0⟩ rfl (by decide)).2.2.2.2

/-- C3: for a graph at or above the maximum single-document size,
half-precision conversion runs with shape inference disabled and
persistence writes exactly one companion data file named by appending
"_data" to the primary output file name; below the ceiling no companion
file is produced; in both cases the size-limit condition never escapes the
half-precision path (`quantize_fp16` in `quantize.py`, and the try/except
branch of `convert.py`, both return normally). -/
theorem fp16_externalization_trigger (model : ModelProto) (save_path : String) :
    (MAXIMUM_PROTOBUF ≤ model.byteSize →
      (∃ m' evs, quantize_fp16 model save_path = .ok (m', evs) ∧
        Event.convertedFp16 true ∈ evs ∧
        writesOf evs = [save_path, save_path ++ "_data"]) ∧
      convertFp16Branch model save_path = .ok [save_path ++ "_data", save_path]) ∧
    (model.byteSize < MAXIMUM_PROTOBUF →
      (∃ m' evs, quantize_fp16 model save_path = .ok (m', evs) ∧
        Event.convertedFp16 false ∈ evs ∧
        writesOf evs = [save_path]) ∧
      convertFp16Branch model save_path = .ok [save_path]) := by
  constructor
  · intro h
    constructor
    · refine ⟨_, _, quantize_fp16_eq model save_path, ?_, ?_⟩
      · rw [decide_eq_true h]
        exact List.mem_cons_self _ _
      · show writesOf (Event.convertedFp16 _ ::
          check_and_save_model { model with graph := model.graph.toposort } save_path) = _
        have : writesOf (Event.convertedFp16
            (decide (MAXIMUM_PROTOBUF ≤ model.byteSize)) ::
              check_and_save_model { model with graph := model.graph.toposort }
                save_path) =
            writesOf (check_and_save_model
              { model with graph := model.graph.toposort } save_path) := rfl
        rw [this, writesOf_check_and_save_model, if_pos h]
    · unfold convertFp16Branch convert_float_to_float16
      simp [h]
  · intro h
    have h' : ¬ MAXIMUM_PROTOBUF ≤ model.byteSize := not_le.mpr h
    constructor
    · refine ⟨_, _, quantize_fp16_eq model save_path, ?_, ?_⟩
      · rw [decide_eq_false h']
        exact List.mem_cons_self _ _
      · have : writesOf (Event.convertedFp16
            (decide (MAXIMUM_PROTOBUF ≤ model.byteSize)) ::
              check_and_save_model { model with graph := model.graph.toposort }
                save_path) =
            writesOf (check_and_save_model
              { model with graph := model.graph.toposort } save_path) := rfl
        rw [this, writesOf_check_and_save_model, if_neg h']
    · unfold convertFp16Branch convert_float_to_float16
      simp [h']

/-- Witness for C3 at one oversized model (the spec's "test double") and
one small model. -/
theorem fp16_externalization_trigger_witness :
    convertFp16Branch ⟨⟨[]⟩, 2000000000⟩ "p" = .ok ["p" ++ "_data", "p"] ∧
    convertFp16Branch ⟨⟨[]⟩, 7⟩ "p" = .ok ["p"] :=
  ⟨((fp16_externalization_trigger ⟨⟨[]⟩, 2000000000⟩ "p").1 (by decide)).2,
   ((fp16_externalization_trigger ⟨⟨[]⟩, 7⟩ "p").2 (by decide)).2⟩

/-- C7: the node list persisted by the half-precision path is topologically
sorted — every tensor's producer precedes all of its consumers — whenever
the input graph is topologically valid (its nodes admit a valid
arrangement, i.e. the graph is acyclic). -/
theorem fp16_toposort_valid (model : ModelProto) (save_path : String)
    (l' : List Node) (hperm : model.graph.node.Perm l') (hvalid : TopoValid l') :
    ∀ m' evs, quantize_fp16 model save_path = .ok (m', evs) →
      TopoSorted m'.graph.node := by
  intro m' evs h
  rw [quantize_fp16_eq] at h
  injection h with h2
  have hm' : m' = { model with graph := model.graph.toposort } :=
    (congrArg Prod.fst h2).symm
  rw [hm']
  show TopoSorted (kahn model.graph.node.length model.graph.node).1
  exact kahn_sorted _ _
    (kahn_complete model.graph.node.length model.graph.node l' le_rfl hperm hvalid)

/-- Witness for C7: a two-node graph given in reversed (invalid) order is
persisted in topologically sorted order. -/
theorem fp16_toposort_valid_witness :
    ∃ m' evs,
      quantize_fp16 ⟨⟨[Node.mk "Add" ["t"] ["u"] [], Node.mk "Mul" [] ["t"] []]⟩, 0⟩ "p" =
        .ok (m', evs) ∧
      TopoSorted m'.graph.node :=
  ⟨_, _, quantize_fp16_eq _ _,
    fp16_toposort_valid ⟨⟨[Node.mk "Add" ["t"] ["u"] [], Node.mk "Mul" [] ["t"] []]⟩, 0⟩ "p"
      [Node.mk "Mul" [] ["t"] [], Node.mk "Add" ["t"] ["u"] []]
      (List.Perm.swap _ _ _) (by decide) _ _ (quantize_fp16_eq _ _)⟩

theorem convertProcessFile_QI8_events (qs : Quantizers) (dir stem : String)
    (pc rr : Bool) (bs : Option Int) (sym : Bool) (acc qt : Option Int)
    (model : ModelProto) :
    (convertProcessFile qs .QI8 dir stem pc rr bs sym acc qt model).1 =
      Event.inspectedOperators :: Event.calledQuantizeDynamic QuantType.QInt8 ::
        (match qs.quantizeDynamic model QuantType.QInt8 with
          | .error _ => []
          | .ok _ => [Event.wrote (dir ++ "/" ++ stem ++ "_" ++ "int8" ++ ".onnx")]) := by
  show (match qs.quantizeDynamic model QuantType.QInt8 with
      | .error e =>
        ([Event.inspectedOperators, Event.calledQuantizeDynamic QuantType.QInt8], some e)
      | .ok _ =>
        ([Event.inspectedOperators, Event.calledQuantizeDynamic QuantType.QInt8,
          Event.wrote (dir ++ "/" ++ stem ++ "_" ++ "int8" ++ ".onnx")],
          (none : Option String))).1 = _
  cases qs.quantizeDynamic model QuantType.QInt8 <;> rfl

theorem convertProcessFile_QU8_events (qs : Quantizers) (dir stem : String)
    (pc rr : Bool) (bs : Option Int) (sym : Bool) (acc qt : Option Int)
    (model : ModelProto) :
    (convertProcessFile qs .QU8 dir stem pc rr bs sym acc qt model).1 =
      Event.inspectedOperators :: Event.calledQuantizeDynamic QuantType.QUInt8 ::
        (match qs.quantizeDynamic model QuantType.QUInt8 with
          | .error _ => []
          | .ok _ => [Event.wrote (dir ++ "/" ++ stem ++ "_" ++ "uint8" ++ ".onnx")]) := by
  show (match qs.quantizeDynamic model QuantType.QUInt8 with
      | .error e =>
        ([Event.inspectedOperators, Event.calledQuantizeDynamic QuantType.QUInt8], some e)
      | .ok _ =>
        ([Event.inspectedOperators, Event.calledQuantizeDynamic QuantType.QUInt8,
          Event.wrote (dir ++ "/" ++ stem ++ "_" ++ "uint8" ++ ".onnx")],
          (none : Option String))).1 = _
  cases qs.quantizeDynamic model QuantType.QUInt8 <;> rfl

theorem inspected_not_mem_quantize_q8 (qs : Quantizers) (model : ModelProto)
    (sp : String) (pc rr : Option Bool) (wt : QuantType) :
    Event.inspectedOperators ∉ (quantize_q8 qs model sp pc rr wt).1 := by
  rw [quantize_q8_events]
  intro h
  rcases List.mem_cons.mp h with h1 | h2
  · exact Event.noConfusion h1
  · cases hq : qs.q8process model wt QuantType.QUInt8 pc rr with
    | error e =>
      rw [hq] at h2
      exact absurd h2 (List.not_mem_nil _)
    | ok q =>
      rw [hq] at h2
      obtain ⟨p, hp⟩ := check_and_save_model_only_writes q sp _ h2
      exact Event.noConfusion hp

/-- C8 counterexample: the claim says operator-set inspection is skipped for
the fixed EightBitSignedOnly / EightBitUnsignedOnly modes, but the
`quantize` function of `scripts/convert.py` collects the operator set for
all three 8-bit modes (it is recorded in `per_model_config`): a concrete
int8 job through that path inspects the operators. -/
theorem fixed_weight_modes_counterexample :
    Event.inspectedOperators ∈
      (convertProcessFile idQuantizers .QI8 "d" "m" true true none true none none
        ⟨⟨[Node.mk "Gemm" [] [] []]⟩, 0⟩).1 := by
  rw [convertProcessFile_QI8_events]
  exact List.mem_cons_self _ _

/-- C8 amended: for EightBitSignedOnly (int8) and EightBitUnsignedOnly
(uint8) jobs the resolved weight type is the fixed signed / unsigned 8-bit
type, independent of the model's operator set, in both entry points; the
standalone `quantize.py` skips operator-set inspection for these modes,
while `convert.py`'s quantize still collects the operator set (for its
metadata record) without using it for type resolution. -/
theorem fixed_weight_modes_amended (args : QuantizationArguments) (qs : Quantizers)
    (folder stem dir stem2 : String) (pc rr : Bool) (bs : Option Int) (sym : Bool)
    (acc qt : Option Int) (model model₁ model₂ : ModelProto) :
    Event.calledQ8 QuantType.QInt8 QuantType.QUInt8 args.per_channel args.reduce_range
      ∈ (processMode args qs folder stem .QI8 model).1 ∧
    Event.calledQ8 QuantType.QUInt8 QuantType.QUInt8 args.per_channel args.reduce_range
      ∈ (processMode args qs folder stem .QU8 model).1 ∧
    Event.inspectedOperators ∉ (processMode args qs folder stem .QI8 model).1 ∧
    Event.inspectedOperators ∉ (processMode args qs folder stem .QU8 model).1 ∧
    Event.calledQuantizeDynamic QuantType.QInt8
      ∈ (convertProcessFile qs .QI8 dir stem2 pc rr bs sym acc qt model₁).1 ∧
    Event.calledQuantizeDynamic QuantType.QUInt8
      ∈ (convertProcessFile qs .QU8 dir stem2 pc rr bs sym acc qt model₂).1 := by
  refine ⟨?_, ?_, ?_, ?_, ?_, ?_⟩
  · rw [processMode_QI8]
    exact (quantize_q8_trace_calledQ8 qs model _ args.per_channel args.reduce_range
      QuantType.QInt8).1
  · rw [processMode_QU8]
    exact (quantize_q8_trace_calledQ8 qs model _ args.per_channel args.reduce_range
      QuantType.QUInt8).1
  · rw [processMode_QI8]
    exact inspected_not_mem_quantize_q8 qs model _ args.per_channel args.reduce_range
      QuantType.QInt8
  · rw [processMode_QU8]
    exact inspected_not_mem_quantize_q8 qs model _ args.per_channel args.reduce_range
      QuantType.QUInt8
  · rw [convertProcessFile_QI8_events]
    exact List.mem_cons_of_mem _ (List.mem_cons_self _ _)
  · rw [convertProcessFile_QU8_events]
    exact List.mem_cons_of_mem _ (List.mem_cons_self _ _)

/-- Witness for the amended C8 at two concrete models with different
operator sets: the resolved int8 weight type is the same fixed signed
type for both. -/
theorem fixed_weight_modes_amended_witness :
    Event.calledQ8 QuantType.QInt8 QuantType.QUInt8 none none
      ∈ (processMode {} idQuantizers "o" "m" .QI8 ⟨⟨[Node.mk "Conv" [] [] []]⟩, 0⟩).1 ∧
    Event.calledQ8 QuantType.QInt8 QuantType.QUInt8 none none
      ∈ (processMode {} idQuantizers "o" "m" .QI8 ⟨⟨[Node.mk "Gemm" [] [] []]⟩, 0⟩).1 :=
  ⟨(fixed_weight_modes_amended {} idQuantizers "o" "m" "d" "m" true true none true
      none none ⟨⟨[Node.mk "Conv" [] [] []]⟩, 0⟩ ⟨⟨[]⟩, 0⟩ ⟨⟨[]⟩, 0⟩).1,
   (fixed_weight_modes_amended {} idQuantizers "o" "m" "d" "m" true true none true
      none none ⟨⟨[Node.mk "Gemm" [] [] []]⟩, 0⟩ ⟨⟨[]⟩, 0⟩ ⟨⟨[]⟩, 0⟩).1⟩

/-- Engines that raise an unsupported-topology error on one marked model
(marked here by its serialized size) and succeed on every other. -/
def failingQuantizers : Quantizers where
  q8process := fun m _ _ _ _ =>
    if m.byteSize = 1 then .error "unsupported topology" else .ok m
  q4process := fun m _ _ _ =>
    if m.byteSize = 1 then .error "unsupported topology" else .ok m
  bnb4process := fun m _ _ => .ok m
  quantizeDynamic := fun m _ =>
    if m.byteSize = 1 then .error "unsupported topology" else .ok ()

/-- C1 counterexample: in the batch of three (file, FourBit) jobs where the
second raises an unsupported-topology error, `quantize` of
`scripts/quantize.py` lets the exception escape (it is *not* caught at the
job boundary), the third job is never attempted, and no output is produced
for it — contradicting per-job isolation. -/
theorem batch_isolation_counterexample :
    (quantize {} failingQuantizers "o" [.Q4]
        [("a", ⟨⟨[]⟩, 0⟩), ("b", ⟨⟨[]⟩, 1⟩), ("c", ⟨⟨[]⟩, 0⟩)]).2 =
      some "unsupported topology" ∧
    (quantize {} failingQuantizers "o" [.Q4]
        [("a", ⟨⟨[]⟩, 0⟩), ("b", ⟨⟨[]⟩, 1⟩), ("c", ⟨⟨[]⟩, 0⟩)]).1.map Prod.fst =
      ["a", "b"] ∧
    ∀ r ∈ (quantize {} failingQuantizers "o" [.Q4]
        [("a", ⟨⟨[]⟩, 0⟩), ("b", ⟨⟨[]⟩, 1⟩), ("c", ⟨⟨[]⟩, 0⟩)]).1,
      r.1 ≠ "c" := by
  decide

/-- C1 amended: error isolation exists only at the per-mode boundary of
`convert.py`'s main loop: every requested mode is attempted and its outcome
(including a caught failure) is recorded, so a failing mode never prevents
other modes; but *within* one mode's file loop an error aborts the
remaining files, and in the standalone `quantize.py` batch an error aborts
all remaining (file, mode) jobs. -/
theorem batch_isolation_amended :
    (∀ (runMode : QuantMode → List (String × List Event) × Option String)
        (modes : List QuantMode),
      (convertMainQuantize runMode modes).map Prod.fst = modes ∧
      ∀ m ∈ modes, (m, runMode m) ∈ convertMainQuantize runMode modes) ∧
    (∀ (run : String × ModelProto → List Event × Option String)
        (pre post : List (String × ModelProto)) (f : String × ModelProto)
        (evs : List Event) (e : String),
      run f = (evs, some e) → (∀ g ∈ pre, (run g).2 = none) →
      convertQuantizeLoop run (pre ++ f :: post) =
        ((pre.map fun g => (g.1, (run g).1)) ++ [(f.1, evs)], some e)) ∧
    (∀ (args : QuantizationArguments) (qs : Quantizers) (folder : String)
        (modes : List QuantMode) (pre post : List (String × ModelProto))
        (stem : String) (model : ModelProto)
        (recs : List (QuantMode × List Event)) (e : String),
      quantizeModesLoop args qs folder stem model modes = (recs, some e) →
      (∀ g ∈ pre, (quantizeModesLoop args qs folder g.1 g.2 modes).2 = none) →
      quantize args qs folder modes (pre ++ (stem, model) :: post) =
        ((pre.map fun g => (g.1, (quantizeModesLoop args qs folder g.1 g.2 modes).1)) ++
          [(stem, recs)], some e)) := by
  refine ⟨?_, ?_, ?_⟩
  · intro runMode modes
    induction modes with
    | nil => exact ⟨rfl, by simp⟩
    | cons m rest ih =>
      refine ⟨?_, ?_⟩
      · show ((m, runMode m) :: convertMainQuantize runMode rest).map Prod.fst = m :: rest
        rw [List.map_cons, ih.1]
      · intro m' hm'
        rcases List.mem_cons.mp hm' with h | h
        · subst h
          exact List.mem_cons_self _ _
        · exact List.mem_cons_of_mem _ (ih.2 m' h)
  · intro run pre post f evs e hf hok
    induction pre with
    | nil =>
      show convertQuantizeLoop run (f :: post) = _
      unfold convertQuantizeLoop
      rw [hf]
      rfl
    | cons g pre' ih =>
      cases hrun : run g with
      | mk gevs gerr =>
        have hg := hok g (List.mem_cons_self _ _)
        rw [hrun] at hg
        subst hg
        show convertQuantizeLoop run (g :: (pre' ++ f :: post)) = _
        unfold convertQuantizeLoop
        rw [hrun, ih fun x hx => hok x (List.mem_cons_of_mem _ hx)]
        simp [hrun]
  · intro args qs folder modes pre post stem model recs e hf hok
    induction pre with
    | nil =>
      show quantize args qs folder modes ((stem, model) :: post) = _
      unfold quantize
      rw [hf]
      rfl
    | cons g pre' ih =>
      cases hg2 : quantizeModesLoop args qs folder g.1 g.2 modes with
      | mk gevs gerr =>
        have hg := hok g (List.mem_cons_self _ _)
        rw [hg2] at hg
        subst hg
        obtain ⟨gstem, gmodel⟩ := g
        show quantize args qs folder modes ((gstem, gmodel) :: (pre' ++ (stem, model) :: post)) = _
        unfold quantize
        rw [hg2, ih fun x hx => hok x (List.mem_cons_of_mem _ hx)]
        simp [hg2]

/-- Witness for the amended C1: one failing mode's outcome is recorded while
the other mode is still attempted, and within a mode the file after the
failing one is not attempted. -/
theorem batch_isolation_amended_witness :
    (convertMainQuantize
        (fun m => ([], if m = .Q8 then some "boom" else none)) [.Q8, .FP16]).map
      Prod.fst = [.Q8, .FP16] ∧
    convertQuantizeLoop
        (fun g => ([], if g.1 = "b" then some "boom" else none))
        ([("a", ⟨⟨[]⟩, 0⟩)] ++ ("b", ⟨⟨[]⟩, 0⟩) :: [("c", ⟨⟨[]⟩, 0⟩)]) =
      ([("a", []), ("b", [])], some "boom") :=
  ⟨(batch_isolation_amended.1 (fun m => ([], if m = .Q8 then some "boom" else none))
      [.Q8, .FP16]).1,
   batch_isolation_amended.2.1 (fun g => ([], if g.1 = "b" then some "boom" else none))
      [("a", ⟨⟨[]⟩, 0⟩)] [("c", ⟨⟨[]⟩, 0⟩)] ("b", ⟨⟨[]⟩, 0⟩) [] "boom"
      (by decide) (by decide)⟩

/-- C9: `get_operators` returns exactly the set of operator-type names of
all nodes of the graph and of every recursively nested subgraph attribute;
on a graph with no subgraph-carrying attributes it equals the set of
top-level node operator names; it is a pure function of the graph, so two
runs on the same graph yield identical sets and the graph is never
modified. -/
theorem operator_inventory_correct (m : ModelProto) :
    get_operators m = specOperatorInventory m.graph ∧
    get_operators m = get_operators m ∧
    ((∀ n ∈ m.graph.node, ∀ p ∈ n.attrs, p.1 ≠ AttrKind.GRAPH) →
      get_operators m = (m.graph.node.map Node.op_type).toFinset) := by
  refine ⟨?_, rfl, ?_⟩
  · rw [get_operators, specOperatorInventory]
    exact nodesOperators_eq _
  · intro h
    rw [get_operators]
    exact nodesOperators_top_level _ h

/-- Witness for C9 at a concrete two-node graph without subgraphs. -/
theorem operator_inventory_correct_witness :
    get_operators ⟨⟨[Node.mk "MatMul" [] [] [], Node.mk "Conv" [] [] []]⟩, 0⟩ =
      (([Node.mk "MatMul" [] [] [], Node.mk "Conv" [] [] []]).map Node.op_type).toFinset :=
  (operator_inventory_correct _).2.2 (by decide)

end QuantizeScripts
